import Mathlib

/-!
Verification of the ring-slot object pool (`objpool`) of this repository.

The definitions below are a shallow embedding of the C sources, primarily
the ring-array variant (`struct objpool_slot` / `struct objpool_head` and
the functions `__objpool_add_slot`, `__objpool_try_add_slot`,
`__objpool_try_get_slot`, `objpool_init`, `objpool_add_scattered`,
`objpool_populate`, `objpool_push`, `objpool_fini`).

Modelling conventions:
* 32-bit counters (`os_head`, `os_tail`, `os_size`, ...) are `Nat` values
  kept below `2 ^ 32`; arithmetic that the C code performs on `uint32_t`
  is written with an explicit `% U32`.
* Pointers are `Nat` addresses, with `0` playing the role of `NULL`.
* The flexible arrays `ages[]` and `ents[]` that follow the slot header
  are `List Nat` and `List (Option Nat)` fields; an `ents` entry of
  `none` is a `NULL` object pointer.
* Atomic read-modify-write operations are given their sequential
  (single-thread, uncontended) semantics: a `cmpxchg` that compares
  against the value just loaded succeeds.  The pop path is additionally
  modelled once per loop iteration against an explicit view of the
  shared fields (`PopObs`), so that a failing CAS and a concurrently
  moving `head` can be expressed.
* Kernel allocation (and its failure paths) and gfp flags are not part
  of the model: the allocator always succeeds, and the addresses it
  hands out are supplied as a parameter (`slotAddr`).
* The model is built for a 64-bit kernel: `sizeof(struct objpool_slot)
  = 16`, `sizeof(uint32_t) = 4`, `sizeof(void *) = 8`,
  `L1_CACHE_BYTES = 64`, and `num_possible_cpus()` is a parameter.
* Unbounded C loops (`do ... while (1)`, the fini drain) are given
  explicit fuel; exhausted fuel models the loop still running, never an
  error return.
-/

/-- `2 ^ 32`, the modulus of the `uint32_t` counters. -/
def U32 : Nat := 4294967296

/-- Kernel error code `EINVAL` (invalid argument). -/
def EINVAL : Int := 22

/-- Kernel error code `ENOENT` (used by the pool for "no room / not found"). -/
def ENOENT : Int := 2

/-- Kernel error code `ENOTSUPP` (unsupported configuration). -/
def ENOTSUPP : Int := 524

/-- `struct objpool_slot`: per-cpu ring array, with the two flexible
arrays `ages[]` (epoch tags) and `ents[]` (object pointers) that the C
code lays out right after the header. -/
structure Slot where
  os_head : Nat
  os_tail : Nat
  os_size : Nat
  os_mask : Nat
  os_ages : List Nat
  os_ents : List (Option Nat)
deriving Repr, DecidableEq

/-- `__objpool_add_slot`: unconditional add.  The ticket is the
pre-increment value of `os_tail` (`atomic_inc_return(...) - 1`); the
object is stored at `tail & mask` and the epoch tag published there.
The C function unconditionally returns 0. -/
def __objpool_add_slot (obj : Nat) (os : Slot) : Slot :=
  let tail := os.os_tail
  { os with
    os_tail := (tail + 1) % U32
    os_ents := os.os_ents.set (tail &&& os.os_mask) (some obj)
    os_ages := os.os_ages.set (tail &&& os.os_mask) tail }

/-- `__objpool_try_add_slot`: bounded add.  Loads `head` and `tail`,
aborts with `-ENOENT` if `tail >= head + size` (32-bit arithmetic),
otherwise reserves the ticket with `try_cmpxchg_acquire` (which succeeds
in the sequential model) and stores the object and its epoch tag.
`none` models the `-ENOENT` return, which leaves the slot untouched. -/
def __objpool_try_add_slot (obj : Nat) (os : Slot) : Option Slot :=
  let head := os.os_head
  let tail := os.os_tail
  if (head + os.os_size) % U32 ≤ tail then
    none
  else
    some { os with
      os_tail := (tail + 1) % U32
      os_ents := os.os_ents.set (tail &&& os.os_mask) (some obj)
      os_ages := os.os_ages.set (tail &&& os.os_mask) tail }

/-- The full-slot test of `__objpool_try_add_slot`, i.e. the C condition
`tail >= head + os_size` evaluated in `uint32_t` arithmetic. -/
def slotFullChk (os : Slot) : Bool :=
  decide ((os.os_head + os.os_size) % U32 ≤ os.os_tail)

/-- `__objpool_try_get_slot`, sequential semantics.  With no concurrent
writer, the first reload of `os_head` after a failed readiness check
returns the unchanged value, so the `head == prev` test breaks out of
the loop at once; a successful readiness check makes the
`try_cmpxchg_release` succeed.  Returns the popped entry (the value read
from `ents[head & mask]`, which the C code returns even if it is NULL)
together with the resulting slot. -/
def __objpool_try_get_slot (os : Slot) : Option Nat × Slot :=
  let head := os.os_head
  if head = os.os_tail then
    (none, os)
  else if os.os_ages.getD (head &&& os.os_mask) 0 = head then
    (os.os_ents.getD (head &&& os.os_mask) none,
     { os with os_head := (head + 1) % U32 })
  else
    (none, os)

/-- Occupancy of a slot: `tail - head` in 32-bit arithmetic. -/
def slotOcc (os : Slot) : Nat := (os.os_tail + U32 - os.os_head) % U32

/-- The slot invariant: `head`, `tail` and `size` are `uint32_t` values
and `head ≤ tail` modulo 32-bit wraparound with occupancy
`tail - head ∈ [0, size]`. -/
def slotInv (os : Slot) : Prop :=
  os.os_head < U32 ∧ os.os_tail < U32 ∧ os.os_size < U32 ∧
    slotOcc os ≤ os.os_size

instance (os : Slot) : Decidable (slotInv os) := by
  unfold slotInv; infer_instance

/-!  ### The pop loop against a concurrent environment

`__objpool_try_get_slot` re-reads `os_tail`, `ages[]`, `ents[]` and
`os_head` on every iteration; under concurrency those reads may see
values written by other cpus.  `PopObs` packages the values one loop
iteration observes, and `popAttempt` is the loop body of the C function
evaluated against such a view.  -/

/-- The shared-field values observed by one iteration of the pop loop:
the `READ_ONCE(os_tail)` value, the `ages[]` and `ents[]` contents seen
by the acquire loads, the value of `os_head` at the instant of the
`try_cmpxchg_release` (the CAS succeeds iff it still equals the local
head), and the value delivered by the final `READ_ONCE(os_head)`
reload. -/
structure PopObs where
  tailV : Nat
  agesF : Nat → Nat
  entsF : Nat → Option Nat
  casHead : Nat
  reloadHead : Nat

/-- Result of one iteration of the pop loop: either the function
returns (`halt`), or the loop continues with a new local head. -/
inductive PopStep where
  | halt : Option Nat → PopStep
  | next : Nat → PopStep
deriving Repr, DecidableEq

/-- One iteration of the `__objpool_try_get_slot` loop, with local head
`h`, against the observed values `o`.  Mirrors the C control flow:
exit when `h == tail`; if `ages[h & mask] == h`, read `ents[h & mask]`
and attempt the CAS, returning the entry on success; otherwise (not
ready, or CAS failed) reload `head` and give up if it has not moved. -/
def popAttempt (mask h : Nat) (o : PopObs) : PopStep :=
  if h = o.tailV then
    .halt none
  else if o.agesF (h &&& mask) = h then
    if o.casHead = h then
      .halt (o.entsF (h &&& mask))
    else if o.reloadHead = h then .halt none else .next o.reloadHead
  else if o.reloadHead = h then .halt none else .next o.reloadHead

/-!  ### Slot initialization  -/

/-- The state of a freshly allocated slot in
`__objpool_init_percpu_slots`, before any object is scattered into it:
the whole allocation is `memset` to zero (so `ages[]` is all zeroes and
`ents[]` all NULL), `os_size` is the per-slot capacity, `os_mask` is
`os_size - 1`, and `os_head = os_tail = os_size` ("start from 2nd round
to avoid conflict of 1st item"). -/
def initSlotBase (nents : Nat) : Slot :=
  { os_head := nents, os_tail := nents, os_size := nents, os_mask := nents - 1
    os_ages := List.replicate nents 0
    os_ents := List.replicate nents none }

/-!  ### Pool sizing

`objpool_init` computes the per-slot capacity `oh_nents` from the
requested object count, the cpu count and the `asym` parameter.  The
Linux helpers are modelled bit-for-bit: `fls` is the find-last-set bit
position, `roundup_pow_of_two n = 1 << fls(n - 1)` and
`rounddown_pow_of_two n = 1 << (fls n - 1)`. -/

/-- Find-last-set with explicit fuel (`fls x` is the number of
significant bits of `x`); fuel `n` suffices for argument `n`. -/
def flsAux : Nat → Nat → Nat
  | 0, _ => 0
  | fuel + 1, n => if n = 0 then 0 else flsAux fuel (n / 2) + 1

/-- `fls`: number of significant bits (Linux `fls`). -/
def fls (n : Nat) : Nat := flsAux n n

/-- Linux `roundup_pow_of_two`. -/
def roundup_pow_of_two (n : Nat) : Nat := 2 ^ fls (n - 1)

/-- Linux `rounddown_pow_of_two`. -/
def rounddown_pow_of_two (n : Nat) : Nat := 2 ^ (fls n - 1)

/-- `__objpool_num_of_objs`: how many `(age, entry)` pairs fit in
`size` bytes after the slot header. -/
def __objpool_num_of_objs (size : Nat) : Nat :=
  rounddown_pow_of_two ((size - 16) / (4 + 8))

/-- `L1_CACHE_BYTES` of the modelled configuration. -/
def L1_CACHE_BYTES : Nat := 64

/-- The minimum per-slot capacity used by `objpool_init`:
`__objpool_num_of_objs(L1_CACHE_BYTES)` (= 4 here). -/
def minSlotCap : Nat := __objpool_num_of_objs L1_CACHE_BYTES

/-- The `while (nents * cpus < nobjs) nents <<= 1;` loop of
`objpool_init`.  The guard `0 < nents * cpus` is added solely to make
the recursion well-founded; whenever it fails while `nents * cpus <
nobjs`, the C loop would not terminate (this cannot arise from
`objpool_init`, which calls it with `cpus ≥ 1` and a power of two). -/
def growNents (cpus nobjs nents : Nat) : Nat :=
  if h : 0 < nents * cpus ∧ nents * cpus < nobjs then
    growNents cpus nobjs (nents * 2)
  else
    nents
termination_by nobjs - nents * cpus
decreasing_by
  have h2 : nents * 2 * cpus = 2 * (nents * cpus) := by ring
  omega

/-- The per-slot capacity computation of `objpool_init`: divide the
request over the cpus (or by `asym`), raise to the cache-line minimum,
round up to a power of two, then double until the total capacity covers
the request. -/
def objpool_nents (cpus nobjs asym : Nat) : Nat :=
  let nents0 := if asym ≠ 0 then nobjs / asym else nobjs / cpus
  let nents1 := if nents0 < minSlotCap then minSlotCap else nents0
  growNents cpus nobjs (roundup_pow_of_two nents1)

/-!  ### The pool head and its operations  -/

/-- `struct objpool_head`.  `oh_slots` carries the per-cpu ring
contents; `oh_slot_addrs` records the addresses the allocator returned
for them (the values of the C pointers `oh_slots[i]`), which
`objpool_is_inslot` compares object addresses against. -/
structure Pool where
  oh_objsz : Nat
  oh_nobjs : Nat
  oh_nents : Nat
  oh_ncpus : Nat
  oh_in_user : Bool
  oh_in_slot : Bool
  oh_vmalloc : Bool
  oh_sz_pool : Nat
  oh_pool : Nat
  oh_slots : List Slot
  oh_slot_addrs : List Nat
  oh_sz_slots : List Nat
deriving Repr, DecidableEq

/-- Placeholder slot for out-of-range list reads (never reached under
the well-formedness hypotheses of the theorems). -/
def dfltSlot : Slot := initSlotBase 0

/-- Kernel `ALIGN(x, a)` for a power-of-two `a`. -/
def ALIGN (x a : Nat) : Nat := (x + a - 1) / a * a

/-- Number of pre-allocated objects placed in slot `i` by
`__objpool_init_percpu_slots`: `nobjs / ncpus`, plus one for the first
`nobjs % ncpus` slots. -/
def slotObjCount (nobjs cpus i : Nat) : Nat :=
  nobjs / cpus + if i < nobjs % cpus then 1 else 0

/-- A freshly initialized slot after `__objpool_init_percpu_slots` has
scattered its `n` embedded objects into it.  The loop body writes
`ents[tail & mask] = obj; ages[tail & mask] = tail; tail++`, which is
exactly the effect of `__objpool_add_slot`. -/
def initSlotFilled (nents n : Nat) (objAddr : Nat → Nat) : Slot :=
  (List.range n).foldl (fun os j => __objpool_add_slot (objAddr j) os) (initSlotBase nents)

/-- Byte size of the allocation backing slot `i`:
`sizeof(struct objpool_slot) + sizeof(void *) * nents +
 sizeof(uint32_t) * nents + objsz * n`. -/
def objpool_slot_bytes (nents objszA n : Nat) : Nat :=
  16 + 8 * nents + 4 * nents + objszA * n

/-- `objpool_init`.  Fails with `-ENOTSUPP` when `num_possible_cpus()
>= (1UL << 16)`; otherwise computes the per-slot capacity, allocates
and zeroes the per-cpu slots (allocation always succeeds in the model,
at the addresses given by `slotAddr`), and — when `objsz` is nonzero —
scatters the embedded objects, which live at
`SLOT_OBJS(slot) + j * ALIGN(objsz, 8)`, counting them in `oh_nobjs`. -/
def objpool_init (nobjs objsz asym cpus : Nat) (slotAddr : Nat → Nat) :
    Int × Option Pool :=
  if 65536 ≤ cpus then
    (-ENOTSUPP, none)
  else
    let nents := objpool_nents cpus nobjs asym
    let objszA := ALIGN objsz 8
    let inslot := decide (objszA ≠ 0)
    let slots := (List.range cpus).map fun i =>
      if inslot then
        initSlotFilled nents (slotObjCount nobjs cpus i)
          (fun j => slotAddr i + 16 + (8 + 4) * nents + j * objszA)
      else
        initSlotBase nents
    (0, some
      { oh_objsz := objsz
        oh_nobjs := if inslot then
            ((List.range cpus).map (slotObjCount nobjs cpus)).sum
          else 0
        oh_nents := nents
        oh_ncpus := cpus
        oh_in_user := false
        oh_in_slot := inslot
        oh_vmalloc := false
        oh_sz_pool := 0
        oh_pool := 0
        oh_slots := slots
        oh_slot_addrs := (List.range cpus).map slotAddr
        oh_sz_slots := (List.range cpus).map fun i =>
          objpool_slot_bytes nents objszA (slotObjCount nobjs cpus i) })

/-- `objpool_is_inpool`: is `obj` inside the recorded bulk user buffer? -/
def objpool_is_inpool (obj : Nat) (oh : Pool) : Bool :=
  decide (obj ≠ 0 ∧ oh.oh_pool ≤ obj ∧ obj < oh.oh_pool + oh.oh_sz_pool)

/-- `objpool_is_inslot`: is `obj` inside one of the per-cpu slot
allocations (i.e. a pool-embedded object)? -/
def objpool_is_inslot (obj : Nat) (oh : Pool) : Bool :=
  (oh.oh_slot_addrs.zip oh.oh_sz_slots).any fun p =>
    decide (obj ≠ 0 ∧ p.1 ≤ obj ∧ obj < p.1 + p.2)

/-- `objpool_add_scattered`: refuse a NULL object or a pool already at
capacity with `-EINVAL`; otherwise add to slot `nobjs % ncpus`.  The C
for-loop walks the slots until `__objpool_add_slot` accepts; since that
primitive always returns 0, the first iteration succeeds (the loop only
falls through — returning `-ENOENT` — when there are no cpus at all). -/
def objpool_add_scattered (obj : Nat) (oh : Pool) : Int × Pool :=
  if obj = 0 ∨ oh.oh_ncpus * oh.oh_nents ≤ oh.oh_nobjs then
    (-EINVAL, oh)
  else if oh.oh_ncpus = 0 then
    (-ENOENT, oh)
  else
    let cpu := oh.oh_nobjs % oh.oh_ncpus
    let os' := __objpool_add_slot obj (oh.oh_slots.getD cpu dfltSlot)
    (0, { oh with
      oh_slots := oh.oh_slots.set cpu os'
      oh_nobjs := oh.oh_nobjs + 1 })

/-- The carving loop of `objpool_populate`: while one more stride fits,
hand `buf + used` to `objpool_add_scattered`, stopping at its first
failure.  Structural fuel (`size + 1` at the call site) bounds the
loop, which advances `used` by at least one byte per iteration.
Returns the final pool and the number of bytes used. -/
def populateLoop : Nat → Pool → Nat → Nat → Nat → Nat → Pool × Nat
  | 0, oh, _, _, _, used => (oh, used)
  | fuel + 1, oh, buf, objsz, size, used =>
    if used + objsz ≤ size then
      let r := objpool_add_scattered (buf + used) oh
      if r.1 = 0 then
        populateLoop fuel r.2 buf objsz size (used + objsz)
      else
        (r.2, used)
    else
      (oh, used)

/-- `objpool_populate`: batch-insert objects carved from a user buffer.
Returns `-EINVAL` if a buffer was already recorded, the buffer is NULL,
the stride is zero, the buffer is smaller than one stride, or a nonzero
`oh_objsz` disagrees with the stride.  Misalignment of the buffer or
stride only triggers `WARN_ON_ONCE` diagnostics in the C code — it does
not change the control flow, so it is absent here.  Returns `-ENOENT`
when not a single object fit, and on success records the buffer. -/
def objpool_populate (oh : Pool) (buf size objsz : Nat) : Int × Pool :=
  if oh.oh_pool ≠ 0 ∨ buf = 0 ∨ objsz = 0 ∨ size < objsz then
    (-EINVAL, oh)
  else if oh.oh_objsz ≠ 0 ∧ oh.oh_objsz ≠ objsz then
    (-EINVAL, oh)
  else
    let r := populateLoop (size + 1) oh buf objsz size 0
    if r.2 = 0 then
      (-ENOENT, r.1)
    else
      (0, { r.1 with oh_pool := buf, oh_sz_pool := size, oh_objsz := objsz })

/-- The `++cpu; if (cpu >= ncpus) cpu = 0;` advance of the cross-core
search loops. -/
def nextCpu (ncpus cpu : Nat) : Nat :=
  if ncpus ≤ cpu + 1 then 0 else cpu + 1

/-- The `do { ... } while (1)` loop of `objpool_push`: on each
iteration use the bounded add when `oh_nobjs > oh_nents`, else the
unconditional add (which always succeeds); on failure move to the next
cpu.  `none` models the loop still spinning when the fuel runs out —
the `return -ENOENT` after the loop is unreachable in the C code. -/
def objpool_push_loop (obj : Nat) (oh : Pool) : Nat → Nat → Option Pool
  | _, 0 => none
  | cpu, fuel + 1 =>
    if oh.oh_nents < oh.oh_nobjs then
      match __objpool_try_add_slot obj (oh.oh_slots.getD cpu dfltSlot) with
      | some os' => some { oh with oh_slots := oh.oh_slots.set cpu os' }
      | none => objpool_push_loop obj oh (nextCpu oh.oh_ncpus cpu) fuel
    else
      let os' := __objpool_add_slot obj (oh.oh_slots.getD cpu dfltSlot)
      some { oh with oh_slots := oh.oh_slots.set cpu os' }

/-- `objpool_push`, starting from the caller's current cpu. -/
def objpool_push (obj cpu fuel : Nat) (oh : Pool) : Option Pool :=
  objpool_push_loop obj oh cpu fuel

/-- The per-slot drain loop of `objpool_fini`:
`do { obj = __objpool_try_get_slot(...); if (obj) ... } while (obj)`.
Returns the popped objects in order and the final slot.  Under the slot
invariant at most `os_size` pops succeed, so fuel `os_size + 1` runs
the loop to completion. -/
def drainSlot : Nat → Slot → List Nat × Slot
  | 0, os => ([], os)
  | fuel + 1, os =>
    match __objpool_try_get_slot os with
    | (some obj, os') =>
      let r := drainSlot fuel os'
      (obj :: r.1, r.2)
    | (none, os') => ([], os')

/-- One invocation of the user release callback:
`release(context, obj, user, element)` (the context argument does not
influence the pool and is omitted). -/
structure RelCall where
  rc_obj : Nat
  rc_user : Bool
  rc_element : Bool
deriving Repr, DecidableEq

/-- `objpool_fini` with a non-NULL release callback: drain every slot
through the pop primitive, reporting each object with `element = 1` and
`user = !objpool_is_inpool && !objpool_is_inslot`; then report the bulk
buffer, if one was recorded, with `user = 1, element = 0`; finally free
the slots.  The returned list is the sequence of callback invocations
(with a NULL callback the C code skips the drain and the list would be
empty). -/
def objpool_fini (oh : Pool) : List RelCall × Pool :=
  let perSlot := oh.oh_slots.map fun os => (drainSlot (os.os_size + 1) os).1
  let elemCalls : List RelCall := perSlot.flatten.map fun obj =>
    { rc_obj := obj
      rc_user := !objpool_is_inpool obj oh && !objpool_is_inslot obj oh
      rc_element := true }
  let calls := elemCalls ++
    (if oh.oh_pool ≠ 0 then
      [{ rc_obj := oh.oh_pool, rc_user := true, rc_element := false }]
    else [])
  let ohFreed := { oh with
    oh_pool := 0
    oh_sz_pool := 0
    oh_slots := []
    oh_slot_addrs := []
    oh_sz_slots := [] }
  (calls, ohFreed)

/-- Well-formedness of a slot for draining: a non-wrapped window
`[head, tail)` of at most `size` entries, every one of them published
(its epoch tag in place and its entry non-NULL). -/
def slotDrainReady (os : Slot) : Prop :=
  os.os_head ≤ os.os_tail ∧ os.os_tail < U32 ∧
  os.os_tail - os.os_head ≤ os.os_size ∧
  ∀ j, os.os_head ≤ j → j < os.os_tail →
    os.os_ages.getD (j &&& os.os_mask) 0 = j ∧
    os.os_ents.getD (j &&& os.os_mask) none ≠ none

/-- Every slot of the pool is ready for draining. -/
def poolDrainReady (oh : Pool) : Prop :=
  ∀ os ∈ oh.oh_slots, slotDrainReady os

/-- Number of objects the pool is holding: the sum of the slot
occupancies. -/
def poolHeld (oh : Pool) : Nat :=
  (oh.oh_slots.map fun os => os.os_tail - os.os_head).sum

/-!  ### Concrete fixtures used by witnesses and counterexamples  -/

/-- A concrete slot: size 4, two occupied positions, both ready. -/
def wSlot : Slot :=
  { os_head := 4, os_tail := 6, os_size := 4, os_mask := 3
    os_ages := [4, 5, 0, 0]
    os_ents := [some 100, some 108, none, none] }

/-- A concrete full slot (occupancy 4 = size). -/
def wSlotFull : Slot :=
  { os_head := 4, os_tail := 8, os_size := 4, os_mask := 3
    os_ages := [4, 5, 6, 7]
    os_ents := [some 100, some 108, some 116, some 124] }

/-- A concrete loop-iteration view: entry 0 is ready with tag 4 and the
CAS sees an unmoved head. -/
def wObs : PopObs :=
  { tailV := 6
    agesF := fun i => if i = 0 then 4 else 0
    entsF := fun i => if i = 0 then some 42 else none
    casHead := 4
    reloadHead := 4 }

/-- A loop-iteration view in which the entry is not ready (a push
reserved the position but has not published its tag) and the reloaded
head has not advanced. -/
def wObsStalled : PopObs :=
  { tailV := 6
    agesF := fun _ => 0
    entsF := fun _ => none
    casHead := 4
    reloadHead := 4 }

/-- A one-cpu pool with a single empty slot of capacity 4 and no
recorded buffer. -/
def wPoolEmpty : Pool :=
  { oh_objsz := 0, oh_nobjs := 0, oh_nents := 4, oh_ncpus := 1
    oh_in_user := false, oh_in_slot := false, oh_vmalloc := false
    oh_sz_pool := 0, oh_pool := 0
    oh_slots := [initSlotBase 4]
    oh_slot_addrs := [1000], oh_sz_slots := [64] }

/-- A one-cpu pool holding one object (address 100) that lies inside
the recorded bulk buffer `[96, 112)`. -/
def wPoolBuf : Pool :=
  { oh_objsz := 16, oh_nobjs := 1, oh_nents := 4, oh_ncpus := 1
    oh_in_user := true, oh_in_slot := false, oh_vmalloc := false
    oh_sz_pool := 16, oh_pool := 96
    oh_slots := [{ os_head := 4, os_tail := 5, os_size := 4, os_mask := 3
                   os_ages := [4, 0, 0, 0]
                   os_ents := [some 100, none, none, none] }]
    oh_slot_addrs := [1000], oh_sz_slots := [64] }

/-- A one-cpu pool in bounded-push mode (`oh_nobjs > oh_nents`) whose
only slot is full. -/
def wPoolBounded : Pool :=
  { oh_objsz := 0, oh_nobjs := 5, oh_nents := 4, oh_ncpus := 1
    oh_in_user := false, oh_in_slot := false, oh_vmalloc := false
    oh_sz_pool := 0, oh_pool := 0
    oh_slots := [wSlotFull]
    oh_slot_addrs := [1000], oh_sz_slots := [64] }

/-!  ## Theorems  -/

/-- `tail` is `head + occupancy` in 32-bit arithmetic. -/
theorem slotOcc_tail (os : Slot) (h1 : os.os_head < U32) (h2 : os.os_tail < U32) :
    os.os_tail = (os.os_head + slotOcc os) % U32 := by
  unfold slotOcc U32 at *
  omega

/-- C2: every slot-level operation preserves the slot invariant.  The
unconditional add assumes the slot is not full; the bounded add and the
pop preserve it unconditionally (a failing bounded add returns `none`
and leaves the slot untouched). -/
theorem slot_ops_preserve_inv (obj : Nat) (os : Slot) (hinv : slotInv os) :
    (slotOcc os < os.os_size → slotInv (__objpool_add_slot obj os)) ∧
    (∀ os', __objpool_try_add_slot obj os = some os' → slotInv os') ∧
    slotInv (__objpool_try_get_slot os).2 := by
  obtain ⟨hh, ht, hs, hocc⟩ := hinv
  refine ⟨?_, ?_, ?_⟩
  · intro hlt
    unfold __objpool_add_slot slotInv slotOcc at *
    simp only
    unfold U32 at *
    omega
  · intro os' hos'
    unfold __objpool_try_add_slot at hos'
    simp only at hos'
    split at hos'
    · exact absurd hos' (by simp)
    · rename_i hfull
      have htail := slotOcc_tail os hh ht
      -- if the occupancy were `size`, the full check would have fired
      have hne : slotOcc os ≠ os.os_size := by
        intro heq
        rw [heq] at htail
        exact hfull (le_of_eq htail.symm)
      cases hos'
      unfold slotInv slotOcc at *
      simp only
      unfold U32 at *
      omega
  · unfold __objpool_try_get_slot
    simp only
    split
    · exact ⟨hh, ht, hs, hocc⟩
    · split
      · -- successful pop: head advances by one, occupancy decreases
        rename_i hne _
        unfold slotInv slotOcc at *
        simp only
        unfold U32 at *
        omega
      · exact ⟨hh, ht, hs, hocc⟩

/-- Witness for C2 at a concrete slot. -/
theorem slot_ops_preserve_inv_witness :
    slotInv (__objpool_add_slot 200 wSlot) ∧
    slotInv (__objpool_try_get_slot wSlot).2 :=
  ⟨(slot_ops_preserve_inv 200 wSlot (by decide)).1 (by decide),
   (slot_ops_preserve_inv 200 wSlot (by decide)).2.2⟩

/-- C4: behaviour of the bounded add.  If `tail ≥ head + size` (32-bit
arithmetic) it fails without modifying the slot; otherwise it reserves
ticket `t = tail`, stores the object at `ents[t & mask]`, publishes `t`
at `ages[t & mask]` and advances `tail` by one. -/
theorem try_add_slot_spec (obj : Nat) (os : Slot) :
    ((os.os_head + os.os_size) % U32 ≤ os.os_tail →
      __objpool_try_add_slot obj os = none) ∧
    (¬ (os.os_head + os.os_size) % U32 ≤ os.os_tail →
      __objpool_try_add_slot obj os = some
        { os with
          os_tail := (os.os_tail + 1) % U32
          os_ents := os.os_ents.set (os.os_tail &&& os.os_mask) (some obj)
          os_ages := os.os_ages.set (os.os_tail &&& os.os_mask) os.os_tail }) := by
  constructor
  · intro hfull
    unfold __objpool_try_add_slot
    simp only [if_pos hfull]
  · intro hfree
    unfold __objpool_try_add_slot
    simp only [if_neg hfree]

/-- Witness for C4: the bounded add fails on a full slot and succeeds on
a non-full one. -/
theorem try_add_slot_spec_witness :
    __objpool_try_add_slot 300 wSlotFull = none ∧
    __objpool_try_add_slot 300 wSlot = some
      { os_head := 4, os_tail := 7, os_size := 4, os_mask := 3
        os_ages := [4, 5, 6, 0]
        os_ents := [some 100, some 108, some 300, none] } :=
  ⟨(try_add_slot_spec 300 wSlotFull).1 (by decide),
   by
    have h := (try_add_slot_spec 300 wSlot).2 (by decide)
    simpa using h⟩

/-- C1: a pop attempt with local head `h` returns a reference exactly
when the epoch tag `ages[h & mask]` equals `h` and the CAS from `h` to
`h + 1` succeeds, in which case the returned value is the one read from
`ents[h & mask]`; and after a failed attempt whose reloaded head has
not advanced, the attempt halts empty instead of continuing. -/
theorem pop_attempt_spec (o : PopObs) (mask h : Nat) :
    (h ≠ o.tailV → o.agesF (h &&& mask) = h → o.casHead = h →
      popAttempt mask h o = .halt (o.entsF (h &&& mask))) ∧
    (∀ r, popAttempt mask h o = .halt (some r) →
      h ≠ o.tailV ∧ o.agesF (h &&& mask) = h ∧ o.casHead = h ∧
        o.entsF (h &&& mask) = some r) ∧
    (h ≠ o.tailV → ¬ (o.agesF (h &&& mask) = h ∧ o.casHead = h) →
      o.reloadHead = h → popAttempt mask h o = .halt none) := by
  refine ⟨?_, ?_, ?_⟩
  · intro hne hage hcas
    unfold popAttempt
    simp [hne, hage, hcas]
  · intro r hr
    unfold popAttempt at hr
    by_cases hne : h = o.tailV
    · simp [hne] at hr
    · by_cases hage : o.agesF (h &&& mask) = h
      · by_cases hcas : o.casHead = h
        · simp [hne, hage, hcas] at hr
          exact ⟨hne, hage, hcas, hr⟩
        · by_cases hrel : o.reloadHead = h <;> simp [hne, hage, hcas, hrel] at hr
      · by_cases hrel : o.reloadHead = h <;> simp [hne, hage, hrel] at hr
  · intro hne hfail hrel
    unfold popAttempt
    by_cases hage : o.agesF (h &&& mask) = h
    · have hcas : o.casHead ≠ h := fun hc => hfail ⟨hage, hc⟩
      simp [hne, hage, hcas, hrel]
    · simp [hne, hage, hrel]

/-- Witness for C1 at concrete observations. -/
theorem pop_attempt_spec_witness :
    popAttempt 3 4 wObs = .halt (some 42) ∧
    popAttempt 3 4 wObsStalled = .halt none := by
  constructor
  · have h := (pop_attempt_spec wObs 3 4).1 (by decide) (by decide) (by decide)
    simpa [wObs] using h
  · have h := (pop_attempt_spec wObsStalled 3 4).2.2 (by decide) (by decide) (by decide)
    exact h

/-- Reading any index of a zeroed `ages[]` array yields 0. -/
theorem getD_replicate_zero (n i : Nat) :
    (List.replicate n (0 : Nat)).getD i 0 = 0 := by
  induction n generalizing i with
  | zero => simp [List.getD]
  | succ m ih =>
    cases i with
    | zero => simp [List.replicate, List.getD]
    | succ j =>
      simp only [List.replicate, List.getD_cons_succ]
      exact ih j

/-- For a power-of-two size, `size & (size - 1) = 0`: the pop at
`head = size` therefore reads `ages[0]`. -/
theorem two_pow_and_mask (k : Nat) : (2 ^ k) &&& (2 ^ k - 1) = 0 := by
  rw [Nat.and_pow_two_sub_one_eq_mod]
  exact Nat.mod_self (2 ^ k)

/-- C3: a slot created by init (per-slot capacity `2 ^ k`, as produced
by the sizing computation) has `head` and `tail` initialized to the
slot size, which is not zero; a pop at `head = size` reads `ages[size &
mask] = ages[0]`, every zero-initialized `ages` entry is 0 ≠ size, so
the readiness test fails — even if an in-flight push has already
reserved `tail` (modelled by the bumped-tail slot), the pop returns
empty. -/
theorem init_slot_head_tail (k : Nat) :
    (initSlotBase (2 ^ k)).os_head = (initSlotBase (2 ^ k)).os_size ∧
    (initSlotBase (2 ^ k)).os_tail = (initSlotBase (2 ^ k)).os_size ∧
    (initSlotBase (2 ^ k)).os_head ≠ 0 ∧
    (initSlotBase (2 ^ k)).os_size &&& (initSlotBase (2 ^ k)).os_mask = 0 ∧
    (initSlotBase (2 ^ k)).os_ages.getD
        ((initSlotBase (2 ^ k)).os_size &&& (initSlotBase (2 ^ k)).os_mask) 0
      ≠ (initSlotBase (2 ^ k)).os_size ∧
    (__objpool_try_get_slot (initSlotBase (2 ^ k))).1 = none ∧
    (__objpool_try_get_slot
        { initSlotBase (2 ^ k) with os_tail := 2 ^ k + 1 }).1 = none := by
  have hpos : 0 < 2 ^ k := Nat.pos_pow_of_pos k (by omega)
  have hmask := two_pow_and_mask k
  refine ⟨rfl, rfl, by simp only [initSlotBase]; omega, ?_, ?_, ?_, ?_⟩
  · simp only [initSlotBase]
    exact hmask
  · simp only [initSlotBase]
    rw [hmask, getD_replicate_zero]
    omega
  · unfold __objpool_try_get_slot
    simp [initSlotBase]
  · unfold __objpool_try_get_slot
    simp only [initSlotBase]
    rw [if_neg (by omega), hmask, getD_replicate_zero, if_neg (by omega)]

/-- C10: `objpool_add_scattered` with a NULL object reference fails
with `-EINVAL` and returns the pool exactly as it was — no slot, no
counter is touched. -/
theorem add_scattered_null (oh : Pool) :
    objpool_add_scattered 0 oh = (-EINVAL, oh) := by
  unfold objpool_add_scattered
  simp

/-- C9 (amended): `objpool_init` fails with `-ENOTSUPP` exactly when
the possible-cpu count is at least `2 ^ 16` (the check in the C code is
`cpus >= (1UL << 16)`, since `2 ^ 16` already overflows the 16-bit
`oh_ncpus` field). -/
theorem init_unsupported_iff (nobjs objsz asym cpus : Nat) (slotAddr : Nat → Nat) :
    (objpool_init nobjs objsz asym cpus slotAddr).1 = -ENOTSUPP ↔ 65536 ≤ cpus := by
  unfold objpool_init
  split
  · rename_i h
    simpa using h
  · rename_i h
    simp only
    constructor
    · intro h0
      exact absurd h0 (by norm_num [ENOTSUPP])
    · intro hc
      exact absurd hc h

/-- Counterexample to C9 as stated: the claim allows every core count
up to and including `2 ^ 16`, but `objpool_init` with exactly
`2 ^ 16 = 65536` possible cpus already returns `-ENOTSUPP`. -/
theorem init_unsupported_cex :
    (objpool_init 16 0 0 65536 (fun _ => 0)).1 = -ENOTSUPP := by
  unfold objpool_init
  norm_num

/-- Witness for C9 (amended): at a supported core count the error is
not produced, and at `65536` cores it is. -/
theorem init_unsupported_iff_witness :
    (objpool_init 4 0 0 2 (fun _ => 0)).1 ≠ -ENOTSUPP ∧
    (objpool_init 4 0 0 65536 (fun _ => 0)).1 = -ENOTSUPP := by
  constructor
  · intro h
    have hc := (init_unsupported_iff 4 0 0 2 (fun _ => 0)).mp h
    omega
  · exact (init_unsupported_iff 4 0 0 65536 (fun _ => 0)).mpr (by omega)

/-- C8 (amended): the error returns of `objpool_populate`.  It returns
`-EINVAL` when a bulk buffer is already recorded, when the buffer is
NULL, when the stride is zero, or when the buffer is smaller than one
stride; and it returns `-ENOENT` when not a single object fits (here:
the pool is already at capacity, so the very first
`objpool_add_scattered` fails).  Misaligned buffers or strides are NOT
rejected by the C code — `WARN_ON_ONCE` only logs them. -/
theorem populate_errors (oh : Pool) (buf size objsz : Nat) :
    (oh.oh_pool ≠ 0 → objpool_populate oh buf size objsz = (-EINVAL, oh)) ∧
    (buf = 0 → objpool_populate oh buf size objsz = (-EINVAL, oh)) ∧
    (objsz = 0 → objpool_populate oh buf size objsz = (-EINVAL, oh)) ∧
    (size < objsz → objpool_populate oh buf size objsz = (-EINVAL, oh)) ∧
    (oh.oh_pool = 0 → buf ≠ 0 → objsz ≠ 0 → objsz ≤ size →
      ¬(oh.oh_objsz ≠ 0 ∧ oh.oh_objsz ≠ objsz) →
      oh.oh_ncpus * oh.oh_nents ≤ oh.oh_nobjs →
      objpool_populate oh buf size objsz = (-ENOENT, oh)) := by
  refine ⟨?_, ?_, ?_, ?_, ?_⟩
  · intro h
    unfold objpool_populate
    rw [if_pos (Or.inl h)]
  · intro h
    unfold objpool_populate
    rw [if_pos (Or.inr (Or.inl h))]
  · intro h
    unfold objpool_populate
    rw [if_pos (Or.inr (Or.inr (Or.inl h)))]
  · intro h
    unfold objpool_populate
    rw [if_pos (Or.inr (Or.inr (Or.inr h)))]
  · intro hpool hbuf hsz hfit hcompat hcap
    unfold objpool_populate
    rw [if_neg (by push_neg; exact ⟨hpool, hbuf, hsz, by omega⟩), if_neg hcompat]
    have hadd : objpool_add_scattered (buf + 0) oh = (-EINVAL, oh) := by
      unfold objpool_add_scattered
      rw [if_pos (Or.inr hcap)]
    have hloop : populateLoop (size + 1) oh buf objsz size 0 = (oh, 0) := by
      simp only [populateLoop]
      rw [if_pos (by omega), hadd]
      norm_num [EINVAL]
    rw [hloop]
    simp

/-- Counterexample to C8 as stated: a buffer whose address (1) violates
word alignment is not rejected — `objpool_populate` succeeds on it
(return value 0, not `-EINVAL`). -/
theorem populate_misaligned_cex :
    (objpool_populate wPoolEmpty 1 8 8).1 = 0 ∧ 1 % 8 ≠ 0 := by
  constructor
  · rfl
  · decide

/-- Witness for C8 (amended) at concrete inputs: a pool with a recorded
buffer, a zero stride, a short buffer, and a full pool. -/
theorem populate_errors_witness :
    objpool_populate wPoolBuf 200 64 16 = (-EINVAL, wPoolBuf) ∧
    objpool_populate wPoolEmpty 200 64 0 = (-EINVAL, wPoolEmpty) ∧
    objpool_populate wPoolEmpty 200 8 16 = (-EINVAL, wPoolEmpty) ∧
    objpool_populate wPoolBounded 200 64 16 = (-ENOENT, wPoolBounded) := by
  refine ⟨?_, ?_, ?_, ?_⟩
  · exact (populate_errors wPoolBuf 200 64 16).1 (by decide)
  · exact (populate_errors wPoolEmpty 200 64 0).2.2.1 rfl
  · exact (populate_errors wPoolEmpty 200 8 16).2.2.2.1 (by omega)
  · exact (populate_errors wPoolBounded 200 64 16).2.2.2.2 rfl (by omega) (by omega)
      (by omega) (by decide) (by decide)

/-- `flsAux` bound: with enough fuel, `x < 2 ^ flsAux fuel x`. -/
theorem flsAux_lt (fuel : Nat) : ∀ n, n ≤ fuel → n < 2 ^ flsAux fuel n := by
  induction fuel with
  | zero =>
    intro n h
    have : n = 0 := by omega
    simp [this, flsAux]
  | succ m ih =>
    intro n h
    unfold flsAux
    by_cases h0 : n = 0
    · simp [h0]
    · rw [if_neg h0]
      have hd : n / 2 ≤ m := by omega
      have hlt := ih (n / 2) hd
      have hpow : 2 ^ (flsAux m (n / 2) + 1) = 2 * 2 ^ flsAux m (n / 2) := by ring
      omega

/-- `roundup_pow_of_two n` is at least `n`. -/
theorem roundup_ge (n : Nat) : n ≤ roundup_pow_of_two n := by
  unfold roundup_pow_of_two fls
  have := flsAux_lt (n - 1) (n - 1) le_rfl
  omega

/-- The doubling loop only ever grows its argument. -/
theorem grow_ge (cpus nobjs nents : Nat) : nents ≤ growNents cpus nobjs nents := by
  induction nents using growNents.induct cpus nobjs with
  | case1 nents h ih =>
    rw [growNents, dif_pos h]
    omega
  | case2 nents h =>
    rw [growNents, dif_neg h]

/-- When the doubling loop exits (with positive `cpus` and `nents`),
the total capacity covers the request. -/
theorem grow_total (cpus nobjs nents : Nat) (hc : 0 < cpus) (hn : 0 < nents) :
    nobjs ≤ growNents cpus nobjs nents * cpus := by
  induction nents using growNents.induct cpus nobjs with
  | case1 nents h ih =>
    rw [growNents, dif_pos h]
    exact ih (by omega)
  | case2 nents h =>
    rw [growNents, dif_neg h]
    have : 0 < nents * cpus := Nat.mul_pos hn hc
    omega

/-- Doubling preserves being a power of two. -/
theorem grow_pow2 (cpus nobjs nents : Nat) (hp : ∃ k, nents = 2 ^ k) :
    ∃ k, growNents cpus nobjs nents = 2 ^ k := by
  induction nents using growNents.induct cpus nobjs with
  | case1 nents hcond ih =>
    rw [growNents, dif_pos hcond]
    obtain ⟨k, hk⟩ := hp
    exact ih ⟨k + 1, by rw [hk]; ring⟩
  | case2 nents hcond =>
    rw [growNents, dif_neg hcond]
    exact hp

/-- C5 (amended): the per-slot capacity computed by `objpool_init` is a
power of two, at least the cache-line minimum, large enough that
`nents * cpus ≥ nobjs`; with `asym = 1` it is at least the full request
(B2); with `asym = 0` and `nobjs < cpus * minSlotCap` it is exactly the
cache-line minimum (B1 — this clause needs the balanced mode: with
`asym = 1` the capacity tracks `nobjs` instead, see the
counterexample); and `objpool_init` stores exactly this value in
`oh_nents`. -/
theorem objpool_sizing (cpus nobjs asym : Nat) (hc : 0 < cpus) :
    (∃ k, objpool_nents cpus nobjs asym = 2 ^ k) ∧
    minSlotCap ≤ objpool_nents cpus nobjs asym ∧
    nobjs ≤ objpool_nents cpus nobjs asym * cpus ∧
    (asym = 1 → nobjs ≤ objpool_nents cpus nobjs asym) ∧
    (asym = 0 → nobjs < cpus * minSlotCap →
      objpool_nents cpus nobjs asym = minSlotCap) ∧
    (∀ objsz slotAddr rc p,
      objpool_init nobjs objsz asym cpus slotAddr = (rc, some p) →
      p.oh_nents = objpool_nents cpus nobjs asym) := by
  have hmin4 : minSlotCap = 4 := rfl
  set n0 := if asym ≠ 0 then nobjs / asym else nobjs / cpus with hn0
  set n1 := if n0 < minSlotCap then minSlotCap else n0 with hn1
  have hkey : objpool_nents cpus nobjs asym =
      growNents cpus nobjs (roundup_pow_of_two n1) := rfl
  have h1pos : 0 < roundup_pow_of_two n1 := Nat.pos_pow_of_pos _ (by omega)
  have hminle : minSlotCap ≤ n1 := by
    rw [hn1]
    split
    · exact le_rfl
    · omega
  refine ⟨?_, ?_, ?_, ?_, ?_, ?_⟩
  · rw [hkey]
    exact grow_pow2 _ _ _ ⟨_, rfl⟩
  · rw [hkey]
    exact le_trans hminle (le_trans (roundup_ge n1) (grow_ge _ _ _))
  · rw [hkey]
    exact grow_total _ _ _ hc h1pos
  · intro ha
    subst ha
    have h0 : n0 = nobjs := by rw [hn0]; norm_num
    have hle1 : nobjs ≤ n1 := by
      rw [hn1, h0]
      split
      · omega
      · exact le_rfl
    rw [hkey]
    exact le_trans hle1 (le_trans (roundup_ge n1) (grow_ge _ _ _))
  · intro ha hlt
    subst ha
    rw [hmin4] at hlt
    have h0 : n0 = nobjs / cpus := by rw [hn0]; norm_num
    have hn0lt : n0 < minSlotCap := by
      rw [h0, hmin4]
      exact (Nat.div_lt_iff_lt_mul hc).mpr (by omega)
    have h1 : n1 = minSlotCap := by rw [hn1, if_pos hn0lt]
    have hr4 : roundup_pow_of_two 4 = 4 := rfl
    rw [hkey, h1, hmin4, hr4, growNents, dif_neg]
    omega
  · intro objsz slotAddr rc p hinit
    unfold objpool_init at hinit
    split at hinit
    · simp at hinit
    · simp only [Prod.mk.injEq] at hinit
      have := Option.some.inj hinit.2
      subst this
      rfl

/-- Counterexample to C5 as stated: the clause "`init` with `count <
num_cores * minimum_slot_capacity` yields `per_slot_capacity ==
minimum_slot_capacity`" fails when `asym = 1`: with 2 cpus and a
request of 7 < 2 * 4 objects, the capacity comes out as 8, not 4. -/
theorem objpool_sizing_cex :
    7 < 2 * minSlotCap ∧ objpool_nents 2 7 1 ≠ minSlotCap := by
  have h2 : objpool_nents 2 7 1 = growNents 2 7 8 := rfl
  have h8 : growNents 2 7 8 = 8 := by
    rw [growNents]
    norm_num
  constructor
  · decide
  · rw [h2, h8]
    decide

/-- Witness for C5 (amended) at concrete inputs: `asym = 1` covers the
whole request, `asym = 0` with a small request settles at the
minimum. -/
theorem objpool_sizing_witness :
    7 ≤ objpool_nents 2 7 1 ∧ objpool_nents 2 7 0 = minSlotCap := by
  constructor
  · exact (objpool_sizing 2 7 1 (by omega)).2.2.2.1 rfl
  · exact (objpool_sizing 2 7 0 (by omega)).2.2.2.2.1 rfl (by decide)

/-- The cpu advance is increment modulo the cpu count. -/
theorem nextCpu_eq (n c : Nat) (h : c < n) : nextCpu n c = (c + 1) % n := by
  unfold nextCpu
  by_cases hle : n ≤ c + 1
  · have he : c + 1 = n := by omega
    rw [if_pos hle, he, Nat.mod_self]
  · rw [if_neg hle, Nat.mod_eq_of_lt (by omega)]

/-- The bounded add fails exactly when the full check fires. -/
theorem try_add_slot_none_iff (obj : Nat) (os : Slot) :
    __objpool_try_add_slot obj os = none ↔
      (os.os_head + os.os_size) % U32 ≤ os.os_tail := by
  unfold __objpool_try_add_slot
  by_cases h : (os.os_head + os.os_size) % U32 ≤ os.os_tail <;> simp [h]

/-- If the bounded push loop runs out of fuel, every slot it visited
failed the full check; the visits walk the cpus cyclically from the
start index. -/
theorem push_loop_none_full (obj : Nat) (oh : Pool) :
    ∀ fuel cpu, oh.oh_nents < oh.oh_nobjs → cpu < oh.oh_ncpus →
    objpool_push_loop obj oh cpu fuel = none →
    ∀ k, k < fuel →
      slotFullChk (oh.oh_slots.getD ((cpu + k) % oh.oh_ncpus) dfltSlot) = true := by
  intro fuel
  induction fuel with
  | zero =>
    intro cpu _ _ _ k hk
    omega
  | succ m ih =>
    intro cpu hb hcpu hnone k hk
    rw [objpool_push_loop, if_pos hb] at hnone
    cases hmatch : __objpool_try_add_slot obj (oh.oh_slots.getD cpu dfltSlot) with
    | some os' =>
      rw [hmatch] at hnone
      simp at hnone
    | none =>
      rw [hmatch] at hnone
      cases k with
      | zero =>
        rw [Nat.add_zero, Nat.mod_eq_of_lt hcpu]
        unfold slotFullChk
        exact decide_eq_true ((try_add_slot_none_iff obj _).mp hmatch)
      | succ j =>
        have hn0 : 0 < oh.oh_ncpus := by omega
        rw [nextCpu_eq _ _ hcpu] at hnone
        have hlt : (cpu + 1) % oh.oh_ncpus < oh.oh_ncpus := Nat.mod_lt _ hn0
        have hful := ih ((cpu + 1) % oh.oh_ncpus) hb hlt hnone j (by omega)
        rw [Nat.mod_add_mod] at hful
        have harr : cpu + 1 + j = cpu + (j + 1) := by omega
        rwa [harr] at hful

/-- C6: the pool-level push.  In unconditional mode (`oh_nobjs ≤
oh_nents`, the default sizing) the push succeeds on its very first slot
attempt; in bounded mode a push that has not succeeded after visiting
every cpu has seen every slot report full (the `return -ENOENT` of the
C function sits after `while (1)` and is unreachable, so an error
return — as opposed to further spinning — cannot occur at all). -/
theorem objpool_push_spec (obj cpu fuel : Nat) (oh : Pool) :
    (oh.oh_nobjs ≤ oh.oh_nents →
      ∃ oh', objpool_push obj cpu (fuel + 1) oh = some oh') ∧
    (oh.oh_nents < oh.oh_nobjs → cpu < oh.oh_ncpus → oh.oh_ncpus ≤ fuel →
      objpool_push obj cpu fuel oh = none →
      ∀ j, j < oh.oh_ncpus →
        slotFullChk (oh.oh_slots.getD j dfltSlot) = true) := by
  constructor
  · intro hle
    unfold objpool_push
    rw [objpool_push_loop, if_neg (by omega)]
    exact ⟨_, rfl⟩
  · intro hb hcpu hfuel hnone j hj
    unfold objpool_push at hnone
    have hn0 : 0 < oh.oh_ncpus := by omega
    have hk : (j + oh.oh_ncpus - cpu) % oh.oh_ncpus < fuel :=
      lt_of_lt_of_le (Nat.mod_lt _ hn0) hfuel
    have hful := push_loop_none_full obj oh fuel cpu hb hcpu hnone
      ((j + oh.oh_ncpus - cpu) % oh.oh_ncpus) hk
    have hidx : (cpu + (j + oh.oh_ncpus - cpu) % oh.oh_ncpus) % oh.oh_ncpus = j := by
      rw [Nat.add_mod_mod]
      have he : cpu + (j + oh.oh_ncpus - cpu) = j + oh.oh_ncpus := by omega
      rw [he, Nat.add_mod_right, Nat.mod_eq_of_lt hj]
    rwa [hidx] at hful

/-- Witness for C6: the unconditional mode accepts at once on the empty
pool; on the bounded-mode pool whose only slot is full, the loop makes
no progress and that slot indeed reports full. -/
theorem objpool_push_spec_witness :
    (∃ oh', objpool_push 500 0 1 wPoolEmpty = some oh') ∧
    slotFullChk (wPoolBounded.oh_slots.getD 0 dfltSlot) = true := by
  constructor
  · exact (objpool_push_spec 500 0 0 wPoolEmpty).1 (by decide)
  · exact (objpool_push_spec 600 0 1 wPoolBounded).2 (by decide) (by decide)
      (by decide) (by decide) 0 (by decide)

/-- Draining a drain-ready slot yields exactly its occupancy, one
object per ready position, provided the fuel exceeds the occupancy. -/
theorem drainSlot_length :
    ∀ fuel os, slotDrainReady os → os.os_tail - os.os_head < fuel →
    (drainSlot fuel os).1.length = os.os_tail - os.os_head := by
  intro fuel
  induction fuel with
  | zero =>
    intro os _ h
    omega
  | succ m ih =>
    intro os hwf hfuel
    obtain ⟨hle, hlt32, hsz, hready⟩ := hwf
    by_cases hht : os.os_head = os.os_tail
    · have hstep : __objpool_try_get_slot os = (none, os) := by
        unfold __objpool_try_get_slot
        rw [if_pos hht]
      simp only [drainSlot, hstep, List.length_nil]
      omega
    · have hlt : os.os_head < os.os_tail := by omega
      obtain ⟨hage, hent⟩ := hready os.os_head le_rfl hlt
      obtain ⟨v, hv⟩ := Option.ne_none_iff_exists'.mp hent
      have hmod : (os.os_head + 1) % U32 = os.os_head + 1 :=
        Nat.mod_eq_of_lt (by omega)
      have hstep : __objpool_try_get_slot os =
          (some v, { os with os_head := os.os_head + 1 }) := by
        unfold __objpool_try_get_slot
        rw [if_neg hht, if_pos hage, hv, hmod]
      simp only [drainSlot, hstep, List.length_cons]
      have hwf' : slotDrainReady { os with os_head := os.os_head + 1 } := by
        refine ⟨by simp only; omega, by simp only; omega, by simp only; omega, ?_⟩
        intro j hj1 hj2
        simp only at hj1 hj2
        exact hready j (by omega) hj2
      have hrec := ih { os with os_head := os.os_head + 1 } hwf'
        (by simp only; omega)
      simp only at hrec
      omega

/-- C7 (amended): with a non-NULL release callback, `objpool_fini` on a
pool holding `N` objects invokes the callback exactly once per drained
object with `is_element` true and `is_external` computed as
`!objpool_is_inpool && !objpool_is_inslot` — i.e. true exactly when the
reference lies outside both the slot allocations and the recorded bulk
buffer (bulk-buffer objects from `populate` therefore get
`is_external = false`) — and then exactly once more with
`(is_external = true, is_element = false)` for the bulk buffer when one
was recorded: `N + 1` calls in total with a bulk buffer, `N`
otherwise. -/
theorem fini_release_calls (oh : Pool) (hwf : poolDrainReady oh) :
    ((objpool_fini oh).1.length
      = poolHeld oh + if oh.oh_pool ≠ 0 then 1 else 0) ∧
    (∀ c ∈ (objpool_fini oh).1, c.rc_element = true →
      c.rc_user = (!objpool_is_inpool c.rc_obj oh
                    && !objpool_is_inslot c.rc_obj oh)) ∧
    (∀ c ∈ (objpool_fini oh).1, c.rc_element = false →
      c.rc_obj = oh.oh_pool ∧ c.rc_user = true) ∧
    (((objpool_fini oh).1.filter fun c => !c.rc_element).length
      = if oh.oh_pool ≠ 0 then 1 else 0) := by
  have hdrain : ∀ os ∈ oh.oh_slots,
      (drainSlot (os.os_size + 1) os).1.length = os.os_tail - os.os_head := by
    intro os hos
    exact drainSlot_length (os.os_size + 1) os (hwf os hos)
      (by have h := (hwf os hos).2.2.1; omega)
  refine ⟨?_, ?_, ?_, ?_⟩
  · unfold objpool_fini poolHeld
    simp only [List.length_append, List.length_map, List.length_flatten,
      List.map_map]
    have hmaps : (oh.oh_slots.map
        ((fun l => l.length) ∘ fun os => (drainSlot (os.os_size + 1) os).1))
        = oh.oh_slots.map fun os => os.os_tail - os.os_head :=
      List.map_congr_left fun os hos => hdrain os hos
    rw [hmaps]
    split <;> simp
  · intro c hc hel
    unfold objpool_fini at hc
    simp only [List.mem_append] at hc
    rcases hc with hc | hc
    · simp only [List.mem_map] at hc
      obtain ⟨obj, _, rfl⟩ := hc
      rfl
    · split at hc
      · simp only [List.mem_singleton] at hc
        subst hc
        simp at hel
      · simp at hc
  · intro c hc hel
    unfold objpool_fini at hc
    simp only [List.mem_append] at hc
    rcases hc with hc | hc
    · simp only [List.mem_map] at hc
      obtain ⟨obj, _, rfl⟩ := hc
      simp at hel
    · split at hc
      · simp only [List.mem_singleton] at hc
        subst hc
        exact ⟨rfl, rfl⟩
      · simp at hc
  · unfold objpool_fini
    simp only [List.filter_append]
    have helem : ∀ (l : List Nat),
        (l.map fun obj =>
          { rc_obj := obj
            rc_user := !objpool_is_inpool obj oh && !objpool_is_inslot obj oh
            rc_element := true : RelCall }).filter (fun c => !c.rc_element) = [] := by
      intro l
      rw [List.filter_eq_nil_iff]
      intro c hc
      simp only [List.mem_map] at hc
      obtain ⟨obj, _, rfl⟩ := hc
      simp
    rw [helem]
    split <;> simp

/-- Counterexample to C7 as stated: in the pool `wPoolBuf` the drained
object 100 lies in the recorded bulk buffer `[96, 112)` — it came from
`populate`, so the claim predicts `is_external = true` for it — yet the
release callback receives `is_external = false` for it (only the final
buffer call carries `is_external = true`). -/
theorem fini_external_flag_cex :
    (objpool_fini wPoolBuf).1 =
      [{ rc_obj := 100, rc_user := false, rc_element := true },
       { rc_obj := 96, rc_user := true, rc_element := false }] ∧
    objpool_is_inpool 100 wPoolBuf = true := by
  constructor
  · rfl
  · rfl

/-- Witness for C7 (amended) at the concrete pool `wPoolBuf` (one held
object, a recorded bulk buffer): two callback invocations in total. -/
theorem fini_release_calls_witness :
    (objpool_fini wPoolBuf).1.length = poolHeld wPoolBuf + 1 := by
  have hwf : poolDrainReady wPoolBuf := by
    intro os hos
    simp only [wPoolBuf, List.mem_singleton] at hos
    subst hos
    refine ⟨by decide, by decide, by decide, ?_⟩
    intro j hj1 hj2
    have hj1' : 4 ≤ j := hj1
    have hj2' : j < 5 := hj2
    have hj4 : j = 4 := by omega
    subst hj4
    constructor <;> decide
  have h := (fini_release_calls wPoolBuf hwf).1
  simpa using h
